import Mathlib

/-
  Verification of the ICAI batch-detail scraper (src/scraper.py).

  The embedding models parsed HTML pages as structured values (input tags,
  select tags with option tags, tables with rows), Python dicts as ordered
  association lists with overwrite-on-duplicate insertion, and Python
  exceptions as `Except Unit`.  The network is a deterministic `Server`
  mapping a GET and each POST payload to a response page (or a raised
  exception).  The asyncio semaphore scheduler is a small-step transition
  system whose `start` rule is gated by the concurrency limit.
-/

set_option maxHeartbeats 1000000

namespace ICAI

/-- An HTML input element: its `type` attribute, and optional `name`/`value`
attributes (`none` = attribute absent). -/
structure InputTag where
  type : String
  name : Option String
  value : Option String
  deriving DecidableEq

/-- An HTML option element inside a select: optional `value` attribute and
its text content. -/
structure OptionTag where
  value : Option String
  text : String
  deriving DecidableEq

/-- An HTML select element: optional `name` attribute and its options. -/
structure SelectTag where
  name : Option String
  options : List OptionTag
  deriving DecidableEq

/-- A table row: the text of its `td` cells (in order) and the row's full
text (`row.text` in BeautifulSoup). -/
structure Row where
  cols : List String
  text : String
  deriving DecidableEq

/-- An HTML table: optional `id` and `border` attributes, and its rows. -/
structure Table where
  id : Option String
  border : Option String
  rows : List Row
  deriving DecidableEq

/-- A parsed page (the BeautifulSoup object): the input tags, the select
tags in document order, and the tables in document order. -/
structure Page where
  inputs : List InputTag
  selects : List SelectTag
  tables : List Table
  deriving DecidableEq

/-- Whether `pat` is a leading segment of `s`. -/
def listPrefixOf : List Char → List Char → Bool
  | [], _ => true
  | _ :: _, [] => false
  | a :: as, b :: bs => a == b && listPrefixOf as bs

/-- Whether `pat` occurs somewhere inside `s`. -/
def strContainsAux (pat : List Char) : List Char → Bool
  | [] => listPrefixOf pat []
  | b :: rest => listPrefixOf pat (b :: rest) || strContainsAux pat rest

/-- Python's substring test `pat in s`. -/
def strContains (pat s : String) : Bool :=
  strContainsAux pat.toList s.toList

/-- Drop leading whitespace characters. -/
def dropLeadWs : List Char → List Char
  | [] => []
  | c :: cs => if c.isWhitespace then dropLeadWs cs else c :: cs

/-- Python's `str.strip()`: remove leading and trailing whitespace. -/
def pyStrip (s : String) : String :=
  String.mk ((dropLeadWs (dropLeadWs s.toList).reverse).reverse)

/-- A Python dict of strings, modelled as an insertion-ordered association
list. -/
abbrev Payload := List (String × String)

/-- Python dict assignment `d[k] = v`: overwrite in place when the key is
present, append otherwise. -/
def dictInsert (d : Payload) (k v : String) : Payload :=
  if d.any (fun p => p.1 == k) then
    d.map (fun p => if p.1 == k then (k, v) else p)
  else
    d ++ [(k, v)]

/-- Python dict lookup `d[k]`: `KeyError` when absent. -/
def attrGet (a : Option String) : Except Unit String :=
  match a with
  | some s => Except.ok s
  | none => Except.error ()

/-- The loop body of `extract_hidden_fields`: for each hidden input with a
truthy `name`, set `payload[name] = value or default ""`. -/
def hiddenFold : Payload → List InputTag → Payload
  | payload, [] => payload
  | payload, tag :: rest =>
      match tag.name with
      | some n =>
          if n ≠ "" then hiddenFold (dictInsert payload n (tag.value.getD "")) rest
          else hiddenFold payload rest
      | none => hiddenFold payload rest

/-- Model of `extract_hidden_fields`: collect every hidden input's name → value
(missing value defaults to `""`); inputs with no (or falsy) name are
skipped. -/
def extract_hidden_fields (page : Page) : Payload :=
  hiddenFold [] (page.inputs.filter (fun t => t.type == "hidden"))

/-- The field-name mapping built by `find_field_names`.  `none` in
`region`/`pou`/`course` means the key is absent from the Python dict;
`none` in `btn` means the key maps to Python `None`. -/
structure FieldNames where
  region : Option String
  pou : Option String
  course : Option String
  btn : Option String
  deriving DecidableEq

/-- Model of `soup.find('input', attrs value 'Get List')`, falling back to
`soup.find('input', type='submit')`. -/
def findBtn (page : Page) : Option InputTag :=
  match page.inputs.find? (fun t => t.value == some "Get List") with
  | some b => some b
  | none => page.inputs.find? (fun t => t.type == "submit")

/-- Model of `find_field_names`: when at least 3 selects exist, bind the first three
selects' `name` attributes to region/pou/course (a missing `name` raises
`KeyError`); then locate the submit button, storing its name (or `None`). -/
def find_field_names (page : Page) : Except Unit FieldNames := do
  let base ←
    match page.selects with
    | s0 :: s1 :: s2 :: _ => do
        let r ← attrGet s0.name
        let p ← attrGet s1.name
        let c ← attrGet s2.name
        Except.ok (some r, some p, some c)
    | _ => Except.ok ((none : Option String), (none : Option String), (none : Option String))
  let bn ←
    match findBtn page with
    | some b => do
        let n ← attrGet b.name
        Except.ok (some n)
    | none => Except.ok (none : Option String)
  Except.ok ⟨base.1, base.2.1, base.2.2, bn⟩

/-- The option-list comprehension
`[(o['value'], o.text.strip()) for o in sel.find_all('option')
  if o['value'] and "Select" not in o.text]`:
reading `o['value']` raises `KeyError` when the attribute is absent, even
for options the filter would drop. -/
def readOptions : List OptionTag → Except Unit (List (String × String))
  | [] => Except.ok []
  | o :: rest => do
      let v ← attrGet o.value
      let tail ← readOptions rest
      if (v != "") && !(strContains "Select" o.text) then
        Except.ok ((v, pyStrip o.text) :: tail)
      else
        Except.ok tail

/-- Model of the table lookup by a Grid id hint, falling back to
`soup.find('table', border='1')`. -/
def findTable (page : Page) : Option Table :=
  match page.tables.find? (fun t =>
      match t.id with
      | some i => (i != "") && strContains "Grid" i
      | none => false) with
  | some t => some t
  | none => page.tables.find? (fun t => t.border == some "1")

/-- One flat output record appended to `self.all_data`. -/
structure Record where
  Region : String
  Pou : String
  SelectedCourse : String
  BatchNo : String
  AvailableSeats : String
  FromDate : String
  ToDate : String
  BatchTime : String
  PouName : String
  Course : String
  OpenFor : String
  RegistrationStartDate : String
  deriving DecidableEq

/-- The body of `parse_table`'s row loop: skip rows with no cells or whose
text contains "No records"; otherwise strip each cell text, pad the column
list to 9 entries with `""`, and build the record from columns 0–8. -/
def parse_row (reg pou course : String) (row : Row) : Option Record :=
  if row.cols.isEmpty || strContains "No records" row.text then none
  else
    let c0 := row.cols.map pyStrip
    let c := c0 ++ List.replicate (9 - c0.length) ""
    some ⟨reg, pou, course,
      c.getD 0 "", c.getD 1 "", c.getD 2 "", c.getD 3 "", c.getD 4 "",
      c.getD 5 "", c.getD 6 "", c.getD 7 "", c.getD 8 ""⟩

/-- Model of `parse_table`: locate the results table, skip the header row, and emit
one record per qualifying remaining row. -/
def parse_table (page : Page) (reg pou course : String) : List Record :=
  match findTable page with
  | none => []
  | some t =>
      match t.rows with
      | [] => []
      | _ :: rest => rest.filterMap (parse_row reg pou course)

/-- A page holding exactly one table (with a `Grid` id, as the ASP.NET
GridView renders it) with the given rows. -/
def mkTablePage (rows : List Row) : Page :=
  ⟨[], [], [⟨some "GridView1", none, rows⟩]⟩

/-- A deterministic server: the response page of `GET URL`, and the
response page for each `POST URL data=payload` (either may raise, modelling
a network error). -/
structure Server where
  get : Except Unit Page
  post : Payload → Except Unit Page

/-- A (region option, unit option) pair: the unit of fan-out work. -/
abbrev Combo := (String × String) × (String × String)

/-- The payload of a region-selection postback:
`payload[fields['region']] = reg_val; payload['__EVENTTARGET'] =
fields['region']; payload['__EVENTARGUMENT'] = ''`.  Looking up a missing
`region` key raises `KeyError`. -/
def stepB_request (fields : FieldNames) (regVal : String) (p : Payload) :
    Except Unit Payload := do
  let rf ← attrGet fields.region
  Except.ok (dictInsert (dictInsert (dictInsert p rf regVal) "__EVENTTARGET" rf)
    "__EVENTARGUMENT" "")

/-- The payload of a unit-selection postback: region and pou values plus
`__EVENTTARGET = fields['pou']`. -/
def stepC_request (fields : FieldNames) (regVal pouVal : String) (p : Payload) :
    Except Unit Payload := do
  let rf ← attrGet fields.region
  let pf ← attrGet fields.pou
  Except.ok (dictInsert (dictInsert (dictInsert (dictInsert p rf regVal) pf pouVal)
    "__EVENTTARGET" pf) "__EVENTARGUMENT" "")

/-- The final "Get List" payload of Step D: current state plus region, pou
and course values, cleared `__EVENTTARGET`/`__EVENTARGUMENT`, and the
submit field set to `'Get List'` when its name is known and truthy. -/
def finalRequest (fields : FieldNames) (regVal pouVal courseVal : String)
    (p : Payload) : Except Unit Payload := do
  let rf ← attrGet fields.region
  let pf ← attrGet fields.pou
  let cf ← attrGet fields.course
  let p5 := dictInsert (dictInsert (dictInsert (dictInsert (dictInsert p rf regVal)
    pf pouVal) cf courseVal) "__EVENTTARGET" "") "__EVENTARGUMENT" ""
  match fields.btn with
  | some bn => if bn ≠ "" then Except.ok (dictInsert p5 bn "Get List") else Except.ok p5
  | none => Except.ok p5

/-- Model of `fetch_regions` (Phase 1): GET the entry page, discover field names,
and read the region select's options.  A missing `region` key or a missing
region select raises. -/
def fetch_regions (srv : Server) :
    Except Unit (List (String × String) × FieldNames) := do
  let pg ← srv.get
  let fields ← find_field_names pg
  let rf ← attrGet fields.region
  match pg.selects.find? (fun s => s.name == some rf) with
  | none => Except.error ()
  | some sel => do
      let regions ← readOptions sel.options
      Except.ok (regions, fields)

/-- The page returned by the Phase-2 region postback: fresh GET, extract
hidden fields, then POST the region selection. -/
def region_postback_page (fields : FieldNames) (region : String × String)
    (srv : Server) : Except Unit Page := do
  let pg ← srv.get
  let pB ← stepB_request fields region.1 (extract_hidden_fields pg)
  srv.post pB

/-- Body of the `try` block of `fetch_pous_for_region`: if the unit select is absent
the region has zero units; otherwise read its options and pair each with
the region. -/
def fetch_pous_body (fields : FieldNames) (region : String × String)
    (srv : Server) : Except Unit (List Combo) := do
  let pgB ← region_postback_page fields region srv
  let pf ← attrGet fields.pou
  match pgB.selects.find? (fun s => s.name == some pf) with
  | none => Except.ok []
  | some sel => do
      let pous ← readOptions sel.options
      Except.ok (pous.map (fun p => (region, p)))

/-- Model of `fetch_pous_for_region` (Phase 2): any exception in the body is caught
and the region yields zero combinations. -/
def fetch_pous_for_region (fields : FieldNames) (region : String × String)
    (srv : Server) : List Combo :=
  match fetch_pous_body fields region srv with
  | Except.ok l => l
  | Except.error _ => []

/-- Steps A–C of a scrape task, up to receiving the Step C response page:
fresh GET, region postback, then region+unit postback. -/
def scrape_stepC_page (fields : FieldNames) (combo : Combo) (srv : Server) :
    Except Unit Page := do
  let pgA ← srv.get
  let pB ← stepB_request fields combo.1.1 (extract_hidden_fields pgA)
  let pgB ← srv.post pB
  let pC ← stepC_request fields combo.1.1 combo.2.1 (extract_hidden_fields pgB)
  srv.post pC

/-- Steps A–C of a scrape task: the session state after Step C together
with the discovered course options.  An absent course select raises
(`AttributeError` on `None.find_all`). -/
def scrape_prepare (fields : FieldNames) (combo : Combo) (srv : Server) :
    Except Unit (Payload × List (String × String)) := do
  let pgC ← scrape_stepC_page fields combo srv
  let payload := extract_hidden_fields pgC
  let cf ← attrGet fields.course
  match pgC.selects.find? (fun s => s.name == some cf) with
  | none => Except.error ()
  | some sel => do
      let courses ← readOptions sel.options
      Except.ok (payload, courses)

/-- Step D of a scrape task: per course, POST the final payload and parse
the response table; on an exception, the blocks already appended to the
sink are kept and the error is reported. -/
def stepD (fields : FieldNames) (regVal pouVal regName pouName : String)
    (payload : Payload) (srv : Server) :
    List (String × String) → List (List Record) × Except Unit Unit
  | [] => ([], Except.ok ())
  | (cv, cn) :: rest =>
      match finalRequest fields regVal pouVal cv payload with
      | Except.error e => ([], Except.error e)
      | Except.ok fp =>
          match srv.post fp with
          | Except.error e => ([], Except.error e)
          | Except.ok pg =>
              let blk := parse_table pg regName pouName cn
              let r := stepD fields regVal pouVal regName pouName payload srv rest
              (blk :: r.1, r.2)

/-- Body of the `try` block of `scrape_pou_combination`: the record blocks the
task appends to the shared sink (one block per completed course), and
whether an exception was raised inside the body. -/
def scrape_blocks (fields : FieldNames) (combo : Combo) (srv : Server) :
    List (List Record) × Except Unit Unit :=
  match scrape_prepare fields combo srv with
  | Except.error e => ([], Except.error e)
  | Except.ok pc =>
      stepD fields combo.1.1 combo.2.1 combo.1.2 combo.2.2 pc.1 srv pc.2

/-- Model of `scrape_pou_combination` with its task-boundary `except`: the records
this task contributes to the shared sink; any internal exception is
swallowed and the partial records remain. -/
def scrape_pou_combination (fields : FieldNames) (combo : Combo) (srv : Server) :
    List Record :=
  (scrape_blocks fields combo srv).1.flatten

/-- Model of `run`: Phase 1 discovery (its exceptions propagate), Phase 2 unit
discovery per region, Phase 3 one scrape task per combination; the result
is the final contents of `self.all_data` (in one canonical task order). -/
def run_sink (srv : Server) : Except Unit (List Record) := do
  let rf ← fetch_regions srv
  let combos := (rf.1.map (fun r => fetch_pous_for_region rf.2 r srv)).flatten
  Except.ok ((combos.map (fun c => scrape_pou_combination rf.2 c srv)).flatten)

/-- Success test for an `Except` value, as a plain Bool. -/
def exOk {ε α : Type} : Except ε α → Bool
  | Except.ok _ => true
  | Except.error _ => false

/-- The queue of record blocks a not-yet-finished task still has to append
to the sink. -/
abbrev TaskQ := List (List Record)

/-- A scheduler state: tasks that have not yet acquired the semaphore,
tasks currently inside the semaphore-guarded region (with their remaining
blocks), and the shared sink `self.all_data`. -/
structure SchedState where
  waiting : List TaskQ
  active : List TaskQ
  sink : List Record

/-- Small-step semantics of `asyncio.gather` over tasks guarded by
`asyncio.Semaphore(limit)`: a waiting task may enter the guarded region
only when fewer than `limit` tasks are active; an active task appends its
next block to the shared sink at an await boundary; an exhausted task
releases its slot. -/
inductive Sched (limit : Nat) : SchedState → SchedState → Prop
  | start (w₁ w₂ : List TaskQ) (t : TaskQ) (a : List TaskQ) (s : List Record) :
      a.length < limit →
      Sched limit ⟨w₁ ++ t :: w₂, a, s⟩ ⟨w₁ ++ w₂, t :: a, s⟩
  | emit (w : List TaskQ) (a₁ a₂ : List TaskQ) (blk : List Record) (q : TaskQ)
      (s : List Record) :
      Sched limit ⟨w, a₁ ++ (blk :: q) :: a₂, s⟩ ⟨w, a₁ ++ q :: a₂, s ++ blk⟩
  | done (w : List TaskQ) (a₁ a₂ : List TaskQ) (s : List Record) :
      Sched limit ⟨w, a₁ ++ ([] : TaskQ) :: a₂, s⟩ ⟨w, a₁ ++ a₂, s⟩

/-- Reflexive-transitive closure of the scheduler step relation. -/
inductive Reach (limit : Nat) : SchedState → SchedState → Prop
  | refl (s : SchedState) : Reach limit s s
  | step {s t u : SchedState} : Sched limit s t → Reach limit t u → Reach limit s u

/-- The initial scheduler state of Phase 3: one task per combination, each
holding the record blocks it will produce; nothing active, empty sink. -/
def initState (fields : FieldNames) (combos : List Combo) (srv : Server) :
    SchedState :=
  ⟨combos.map (fun c => (scrape_blocks fields c srv).1), [], []⟩

/-- The multiset of records a state accounts for: the sink plus everything
still queued in waiting or active tasks. -/
def stateBag (s : SchedState) : Multiset Record :=
  Multiset.ofList s.sink +
    ((s.waiting ++ s.active).map (fun q => Multiset.ofList q.flatten)).sum

/-
  Concrete fixtures used to exercise the theorems on closed inputs.
-/

/-- Field names as discovered on a page whose three selects are named
`r`, `p`, `c` and which has no submit button. -/
def fields4 : FieldNames := ⟨some "r", some "p", some "c", none⟩

/-- One concrete (region, unit) combination. -/
def comboW : Combo := (("R1", "North"), ("P1", "UnitA"))

/-- A page with no inputs, selects or tables. -/
def emptyPage : Page := ⟨[], [], []⟩

/-- A server that answers every request with the empty page. -/
def srvEmpty : Server := ⟨Except.ok emptyPage, fun _ => Except.ok emptyPage⟩

/-- Entry page: region select offering `R1`/`North`, empty unit and course
selects, no hidden inputs, no submit button. -/
def entryPage4 : Page :=
  ⟨[], [⟨some "r", [⟨some "R1", "North"⟩]⟩, ⟨some "p", []⟩, ⟨some "c", []⟩], []⟩

/-- Region-postback response: unit select offering `P1`/`UnitA`. -/
def pouPage4 : Page := ⟨[], [⟨some "p", [⟨some "P1", "UnitA"⟩]⟩], []⟩

/-- Unit-postback response: course select offering `100`/`Audit` and
`200`/`Law`. -/
def coursePage4 : Page :=
  ⟨[], [⟨some "c", [⟨some "100", "Audit"⟩, ⟨some "200", "Law"⟩]⟩], []⟩

/-- Final postback response: a GridView table with a header row and one data
row whose first cell carries trailing whitespace. -/
def tablePage4 : Page :=
  ⟨[], [], [⟨some "GridView1", none,
    [⟨["Batch No"], "Batch No"⟩, ⟨["B001 ", "5"], "B001 5"⟩]⟩]⟩

/-- A deterministic server for the full protocol: the region postback has
3 form entries, the unit postback 4; the final "Get List" request for
course `100` succeeds while the one for course `200` fails with a network
error. -/
def srv4 : Server :=
  ⟨Except.ok entryPage4, fun p =>
    if p.length == 3 then Except.ok pouPage4
    else if p.length == 4 then Except.ok coursePage4
    else if p.any (fun q => q == ("c", "100")) then Except.ok tablePage4
    else Except.error ()⟩

/-- The single record scraped from `tablePage4`. -/
def rec4 : Record :=
  ⟨"North", "UnitA", "Audit", "B001", "5", "", "", "", "", "", "", ""⟩

/-- A page whose hidden inputs carry a duplicated name and an empty-string
name. -/
def pgDup : Page :=
  ⟨[⟨"hidden", some "a", some "1"⟩, ⟨"hidden", some "a", some "2"⟩,
    ⟨"hidden", some "", some "3"⟩], [], []⟩

/-- A page with two distinct hidden session tokens (one with no value),
one non-hidden input, and one nameless hidden input. -/
def pgHid : Page :=
  ⟨[⟨"hidden", some "__VIEWSTATE", some "abc"⟩,
    ⟨"hidden", some "__EVENTVALIDATION", none⟩,
    ⟨"text", some "q", some "x"⟩,
    ⟨"hidden", none, some "y"⟩], [], []⟩

/-- An entry page whose region select holds an option with no value
attribute at all. -/
def page10 : Page :=
  ⟨[], [⟨some "r", [⟨none, "Bad"⟩]⟩, ⟨some "p", []⟩, ⟨some "c", []⟩], []⟩

/-- A server answering every request with `page10`. -/
def srv10 : Server := ⟨Except.ok page10, fun _ => Except.ok page10⟩

/-- A page with only two selects (and nothing else). -/
def pgTwoSel : Page := ⟨[], [⟨some "a", []⟩, ⟨some "b", []⟩], []⟩

/-- A server whose entry page is `pgTwoSel`. -/
def srvC1 : Server := ⟨Except.ok pgTwoSel, fun _ => Except.error ()⟩

theorem findTable_mkTablePage (rows : List Row) :
    findTable (mkTablePage rows) = some ⟨some "GridView1", none, rows⟩ := rfl

theorem parse_table_mkTablePage (hdr : Row) (rest : List Row)
    (reg pou course : String) :
    parse_table (mkTablePage (hdr :: rest)) reg pou course =
      rest.filterMap (parse_row reg pou course) := by
  unfold parse_table
  rw [findTable_mkTablePage]

theorem parse_row_skip (reg pou course : String) (row : Row)
    (h : row.cols = [] ∨ strContains "No records" row.text = true) :
    parse_row reg pou course row = none := by
  unfold parse_row
  rcases h with h | h
  · simp [h]
  · simp [h]

/-- Claim C5: a qualifying 5-cell row yields a record whose positional
columns 5–8 are empty strings, and a qualifying 12-cell row yields a record
built from the first 9 cell texts only, each trimmed of surrounding
whitespace and mapped positionally. -/
theorem claim_c5 (reg pou course txt : String)
    (a b c d e x0 x1 x2 x3 x4 x5 x6 x7 x8 x9 x10 x11 : String)
    (hm : strContains "No records" txt = false) :
    parse_row reg pou course ⟨[a, b, c, d, e], txt⟩ =
      some ⟨reg, pou, course, pyStrip a, pyStrip b, pyStrip c, pyStrip d, pyStrip e,
        "", "", "", ""⟩
    ∧ parse_row reg pou course
        ⟨[x0, x1, x2, x3, x4, x5, x6, x7, x8, x9, x10, x11], txt⟩ =
      some ⟨reg, pou, course, pyStrip x0, pyStrip x1, pyStrip x2, pyStrip x3, pyStrip x4,
        pyStrip x5, pyStrip x6, pyStrip x7, pyStrip x8⟩ := by
  constructor
  · unfold parse_row
    simp [hm]
  · unfold parse_row
    simp [hm]

/-- Claim C5 witness. -/
theorem claim_c5_witness :
    parse_row "N" "U" "A" ⟨[" B1 ", "5", "d1", "d2", "t "], "B1"⟩ =
      some ⟨"N", "U", "A", "B1", "5", "d1", "d2", "t", "", "", "", ""⟩ := by
  have h := claim_c5 "N" "U" "A" "B1" " B1 " "5" "d1" "d2" "t "
    "" "" "" "" "" "" "" "" "" "" "" "" (by decide)
  exact h.1.trans (by decide)

/-- Claim C6: the normalizer never emits a record for the table's first
(header) row — replacing the header changes nothing — nor for a row with no
cells, nor for a row whose text contains the "No records" marker, even when
that row has cells: deleting such a row leaves the output unchanged. -/
theorem claim_c6 (reg pou course : String) :
    (∀ (h1 h2 : Row) (rest : List Row),
      parse_table (mkTablePage (h1 :: rest)) reg pou course =
        parse_table (mkTablePage (h2 :: rest)) reg pou course)
    ∧ (∀ (hdr row : Row) (pre post : List Row),
      row.cols = [] ∨ strContains "No records" row.text = true →
      parse_table (mkTablePage (hdr :: (pre ++ row :: post))) reg pou course =
        parse_table (mkTablePage (hdr :: (pre ++ post))) reg pou course) := by
  constructor
  · intro h1 h2 rest
    rw [parse_table_mkTablePage, parse_table_mkTablePage]
  · intro hdr row pre post h
    rw [parse_table_mkTablePage, parse_table_mkTablePage,
      List.filterMap_append, List.filterMap_append,
      List.filterMap_cons_none (parse_row_skip reg pou course row h)]

/-- Claim C6 witness. -/
theorem claim_c6_witness :
    parse_table (mkTablePage
        [⟨["Batch"], "Batch"⟩, ⟨["No records found"], "No records found"⟩])
      "N" "U" "A" =
    parse_table (mkTablePage [⟨["Batch"], "Batch"⟩]) "N" "U" "A" := by
  exact (claim_c6 "N" "U" "A").2 ⟨["Batch"], "Batch"⟩
    ⟨["No records found"], "No records found"⟩ [] [] (Or.inr (by decide))

theorem exBind_ok {ε α β : Type} (a : α) (f : α → Except ε β) :
    (Except.ok a >>= f) = f a := rfl

theorem exBind_err {ε α β : Type} (e : ε) (f : α → Except ε β) :
    ((Except.error e : Except ε α) >>= f) = Except.error e := rfl

/-- Claim C7: when the Phase-B postback response for a region has no unit
select element, `fetch_pous_for_region` returns the empty combination list
for that region instead of raising. -/
theorem claim_c7 (fields : FieldNames) (region : String × String)
    (srv : Server) (pgB : Page) (pf : String)
    (h1 : region_postback_page fields region srv = Except.ok pgB)
    (h2 : fields.pou = some pf)
    (h3 : pgB.selects.find? (fun s => s.name == some pf) = none) :
    fetch_pous_for_region fields region srv = [] := by
  have hb : fetch_pous_body fields region srv = Except.ok [] := by
    unfold fetch_pous_body
    rw [h1, exBind_ok, h2]
    simp only [attrGet, exBind_ok, h3]
  unfold fetch_pous_for_region
  rw [hb]

/-- Claim C3: when the Step C response page of a scrape task has no course
select element, the task contributes zero records to the sink and raises
nothing past the task boundary. -/
theorem claim_c3 (fields : FieldNames) (combo : Combo) (srv : Server)
    (pgC : Page) (cf : String)
    (h1 : scrape_stepC_page fields combo srv = Except.ok pgC)
    (h2 : fields.course = some cf)
    (h3 : pgC.selects.find? (fun s => s.name == some cf) = none) :
    scrape_pou_combination fields combo srv = [] := by
  have hp : scrape_prepare fields combo srv = Except.error () := by
    unfold scrape_prepare
    rw [h1, exBind_ok, h2]
    simp only [attrGet, exBind_ok, h3]
  unfold scrape_pou_combination scrape_blocks
  rw [hp]
  rfl

theorem readOptions_missing_value (opts : List OptionTag)
    (h : ∃ o ∈ opts, o.value = none) : readOptions opts = Except.error () := by
  induction opts with
  | nil => rcases h with ⟨o, ho, _⟩; cases ho
  | cons o rest ih =>
      rcases h with ⟨o', ho', hv⟩
      rcases List.mem_cons.mp ho' with h' | h'
      · subst h'
        unfold readOptions
        rw [hv]
        rfl
      · unfold readOptions
        rw [ih ⟨o', h', hv⟩]
        cases hov : o.value with
        | none => rfl
        | some v => rfl

/-- Claim C10: reading dropdown options is not total — an option element
with no value attribute makes the extraction raise (Python `KeyError`)
rather than being filtered out, while an option with an *empty* value is
silently filtered; in particular a valueless option in the region select
makes `fetch_regions` raise. -/
theorem claim_c10 :
    (∀ opts : List OptionTag, (∃ o ∈ opts, o.value = none) →
      readOptions opts = Except.error ())
    ∧ (∀ (t : String) (rest : List OptionTag),
      readOptions (⟨some "", t⟩ :: rest) =
        (readOptions rest).bind (fun l => Except.ok l))
    ∧ (∀ (srv : Server) (page : Page) (fn : FieldNames) (rf : String)
        (sel : SelectTag),
      srv.get = Except.ok page →
      find_field_names page = Except.ok fn →
      fn.region = some rf →
      page.selects.find? (fun s => s.name == some rf) = some sel →
      (∃ o ∈ sel.options, o.value = none) →
      fetch_regions srv = Except.error ()) := by
  refine ⟨readOptions_missing_value, ?_, ?_⟩
  · intro t rest
    cases hr : readOptions rest with
    | ok l =>
        simp only [readOptions]
        rw [hr]
        rfl
    | error e =>
        simp only [readOptions]
        rw [hr]
        rfl
  · intro srv page fn rf sel hget hffn hrf hfind hopt
    unfold fetch_regions
    rw [hget, exBind_ok, hffn, exBind_ok, hrf]
    simp only [attrGet, exBind_ok, hfind,
      readOptions_missing_value sel.options hopt]
    rfl

theorem dictInsert_fresh (d : Payload) (k v : String)
    (h : ∀ p ∈ d, p.1 ≠ k) : dictInsert d k v = d ++ [(k, v)] := by
  unfold dictInsert
  rw [if_neg]
  intro hany
  rw [List.any_eq_true] at hany
  rcases hany with ⟨p, hp, hpk⟩
  exact h p hp (by simpa using hpk)

theorem hiddenFold_fresh (tags : List InputTag) :
    ∀ payload : Payload,
    (tags.filterMap (fun t => t.name)).Nodup →
    (∀ n ∈ tags.filterMap (fun t => t.name), n ≠ "") →
    (∀ n ∈ tags.filterMap (fun t => t.name), ∀ p ∈ payload, p.1 ≠ n) →
    hiddenFold payload tags =
      payload ++ tags.filterMap (fun t => t.name.map (fun n => (n, t.value.getD ""))) := by
  induction tags with
  | nil => intro payload _ _ _; simp [hiddenFold]
  | cons tag rest ih =>
      obtain ⟨ty, tn, tv⟩ := tag
      intro payload hnd hne hdisj
      cases tn with
      | none =>
          simp only [List.filterMap_cons, Option.map_none'] at hnd hne hdisj ⊢
          show hiddenFold payload rest = _
          rw [ih payload hnd hne hdisj]
      | some n =>
          simp only [List.filterMap_cons, Option.map_some'] at hnd hne hdisj ⊢
          have hnodup := List.nodup_cons.mp hnd
          have hn : n ≠ "" := hne n (List.mem_cons_self n _)
          show (if n ≠ "" then hiddenFold (dictInsert payload n (tv.getD "")) rest
              else hiddenFold payload rest) = _
          rw [if_pos hn,
            dictInsert_fresh payload n (tv.getD "")
              (hdisj n (List.mem_cons_self n _)),
            ih (payload ++ [(n, tv.getD "")]) hnodup.2
              (fun m hm => hne m (List.mem_cons_of_mem n hm))
              (fun m hm p hp => by
                rcases List.mem_append.mp hp with hp' | hp'
                · exact hdisj m (List.mem_cons_of_mem n hm) p hp'
                · have hpe : p = (n, tv.getD "") := by simpa using hp'
                  rw [hpe]
                  intro hc
                  exact hnodup.1 (by rw [show n = m from hc]; exact hm)),
            List.append_assoc]
          rfl

theorem filterMap_pair_length (tags : List InputTag) :
    (tags.filterMap (fun t => t.name.map (fun n => (n, t.value.getD "")))).length =
      (tags.filterMap (fun t => t.name)).length := by
  induction tags with
  | nil => rfl
  | cons t rest ih =>
      obtain ⟨ty, tn, tv⟩ := t
      cases tn <;> simp only [List.filterMap_cons, Option.map_some',
        Option.map_none', List.length_cons] <;> rw [ih]

/-- Claim C2 (amended): when the hidden inputs' names are pairwise distinct
and non-empty, `extract_hidden_fields` returns exactly one entry per hidden
input in document order — so exactly N entries for N named hidden inputs —
with a missing value attribute defaulting to the empty string and nameless
hidden inputs skipped.  (With a duplicated name the dict collapses the
occurrences into one entry, the last value winning, and an empty-string
name is skipped like a missing one, so the unconditional count claim
fails.) -/
theorem claim_c2_amended (page : Page)
    (hnd : ((page.inputs.filter (fun t => t.type == "hidden")).filterMap
      (fun t => t.name)).Nodup)
    (hne : ∀ n ∈ (page.inputs.filter (fun t => t.type == "hidden")).filterMap
      (fun t => t.name), n ≠ "") :
    extract_hidden_fields page =
      (page.inputs.filter (fun t => t.type == "hidden")).filterMap
        (fun t => t.name.map (fun n => (n, t.value.getD "")))
    ∧ (extract_hidden_fields page).length =
      ((page.inputs.filter (fun t => t.type == "hidden")).filterMap
        (fun t => t.name)).length := by
  have h := hiddenFold_fresh (page.inputs.filter (fun t => t.type == "hidden"))
    [] hnd hne (fun n _ p hp => absurd hp (List.not_mem_nil p))
  rw [List.nil_append] at h
  refine ⟨h, ?_⟩
  rw [extract_hidden_fields, h, filterMap_pair_length]

/-- Claim C2 counterexample: `pgDup` has three hidden inputs carrying a
name attribute, yet the extracted mapping has a single entry (the
duplicated name `a` collapses, last value winning; the empty name is
skipped). -/
theorem claim_c2_counterexample :
    ((pgDup.inputs.filter (fun t => t.type == "hidden")).filterMap
      (fun t => t.name)).length = 3
    ∧ extract_hidden_fields pgDup = [("a", "2")] := by decide

/-- Claim C2 witness. -/
theorem claim_c2_witness :
    extract_hidden_fields pgHid =
      [("__VIEWSTATE", "abc"), ("__EVENTVALIDATION", "")] := by
  have h := claim_c2_amended pgHid (by decide) (by decide)
  exact h.1.trans (by decide)

/-- Claim C1 counterexample: on a page with zero selects,
`find_field_names` raises nothing and returns a mapping that lacks all of
the region/unit/course entries (it holds only the btn entry, here `None`) —
so the locator neither fails nor refuses to return a partial mapping. -/
theorem claim_c1_counterexample :
    find_field_names emptyPage = Except.ok ⟨none, none, none, none⟩ := rfl

/-- Claim C1 (amended): for a page with fewer than 3 selects,
`find_field_names` raises no error about the missing selects — whenever it
returns, the mapping lacks all of the region/unit/course entries (only the
btn entry is present) — and the session then fails later, when
`fetch_regions` looks the region field up in that mapping (a `KeyError`,
which does surface to the top level). -/
theorem claim_c1_amended (page : Page) (h : page.selects.length < 3) :
    (∀ fn : FieldNames, find_field_names page = Except.ok fn →
      fn.region = none ∧ fn.pou = none ∧ fn.course = none)
    ∧ (∀ srv : Server, srv.get = Except.ok page →
      fetch_regions srv = Except.error ()) := by
  have hshort : find_field_names page =
      (match findBtn page with
        | some b => attrGet b.name >>=
            (fun n => Except.ok ⟨none, none, none, some n⟩)
        | none => Except.ok ⟨none, none, none, none⟩) := by
    unfold find_field_names
    rcases hsel : page.selects with _ | ⟨s0, _ | ⟨s1, _ | ⟨s2, tl⟩⟩⟩
    · rfl
    · rfl
    · rfl
    · rw [hsel] at h
      simp only [List.length_cons] at h
      omega
  have h1 : ∀ fn : FieldNames, find_field_names page = Except.ok fn →
      fn.region = none ∧ fn.pou = none ∧ fn.course = none := by
    intro fn hfn
    rw [hshort] at hfn
    cases hb : findBtn page with
    | none =>
        rw [hb] at hfn
        have hok : (Except.ok (⟨none, none, none, none⟩ : FieldNames) :
            Except Unit FieldNames) = Except.ok fn := hfn
        cases hok
        exact ⟨rfl, rfl, rfl⟩
    | some b =>
        rw [hb] at hfn
        have hfn2 : (attrGet b.name >>=
            (fun n => Except.ok (⟨none, none, none, some n⟩ : FieldNames))) =
            Except.ok fn := hfn
        cases hn : b.name with
        | none =>
            rw [hn] at hfn2
            have hcontra : (Except.error () : Except Unit FieldNames) =
                Except.ok fn := hfn2
            cases hcontra
        | some bn =>
            rw [hn] at hfn2
            have hok : (Except.ok (⟨none, none, none, some bn⟩ : FieldNames) :
                Except Unit FieldNames) = Except.ok fn := hfn2
            cases hok
            exact ⟨rfl, rfl, rfl⟩
  refine ⟨h1, ?_⟩
  intro srv hget
  unfold fetch_regions
  rw [hget, exBind_ok]
  cases hf : find_field_names page with
  | error e => cases e; rfl
  | ok fn =>
      rw [exBind_ok, (h1 fn hf).1]
      rfl

/-- Claim C1 witness: a concrete server whose entry page has two selects;
discovery returns no region entry and `fetch_regions` raises. -/
theorem claim_c1_witness : fetch_regions srvC1 = Except.error () := by
  exact (claim_c1_amended pgTwoSel (by decide)).2 srvC1 rfl

/-- Claim C4: any exception inside a scrape task is absorbed at the task
boundary — the sink keeps every record appended before the failure point,
the run keeps going and returns normally — and a run fails only when the
Phase-1 field-discovery step itself fails: (i) the run raises exactly when
discovery raises; (ii) whenever discovery succeeds the run returns
normally, for any server behaviour whatsoever inside the tasks, with every
task contributing its partial records; (iii) a course block appended by
Step D survives any later failure in the same task. -/
theorem claim_c4 (srv : Server) :
    exOk (run_sink srv) = exOk (fetch_regions srv)
    ∧ (∀ (regions : List (String × String)) (fields : FieldNames),
        fetch_regions srv = Except.ok (regions, fields) →
        run_sink srv = Except.ok
          ((((regions.map (fun r => fetch_pous_for_region fields r srv)).flatten).map
            (fun c => scrape_pou_combination fields c srv)).flatten))
    ∧ (∀ (fields : FieldNames) (regVal pouVal regName pouName : String)
        (payload : Payload) (cv cn : String) (rest : List (String × String))
        (fp : Payload) (pg : Page),
        finalRequest fields regVal pouVal cv payload = Except.ok fp →
        srv.post fp = Except.ok pg →
        stepD fields regVal pouVal regName pouName payload srv ((cv, cn) :: rest) =
          (parse_table pg regName pouName cn ::
            (stepD fields regVal pouVal regName pouName payload srv rest).1,
           (stepD fields regVal pouVal regName pouName payload srv rest).2)) := by
  refine ⟨?_, ?_, ?_⟩
  · cases hf : fetch_regions srv with
    | error e =>
        unfold run_sink
        rw [hf]
        rfl
    | ok rf =>
        unfold run_sink
        rw [hf]
        rfl
  · intro regions fields hf
    unfold run_sink
    rw [hf, exBind_ok]
  · intro fields regVal pouVal regName pouName payload cv cn rest fp pg h1 h2
    show (match finalRequest fields regVal pouVal cv payload with
      | Except.error e => (([] : List (List Record)), Except.error e)
      | Except.ok fp =>
          match srv.post fp with
          | Except.error e => ([], Except.error e)
          | Except.ok pg =>
              let blk := parse_table pg regName pouName cn
              let r := stepD fields regVal pouVal regName pouName payload srv rest
              (blk :: r.1, r.2)) = _
    rw [h1]
    show (match srv.post fp with
      | Except.error e => (([] : List (List Record)), Except.error e)
      | Except.ok pg =>
          let blk := parse_table pg regName pouName cn
          let r := stepD fields regVal pouVal regName pouName payload srv rest
          (blk :: r.1, r.2)) = _
    rw [h2]

/-- Claim C4 witness: discovery on `srv4` succeeds, the single task fails
on its second course with a simulated network error, yet the run returns
normally with the record produced before the failure. -/
theorem claim_c4_witness :
    run_sink srv4 = Except.ok [rec4]
    ∧ stepD fields4 "R1" "P1" "North" "UnitA" [] srv4
        [("100", "Audit"), ("200", "Law")] = ([[rec4]], Except.error ()) := by
  constructor
  · exact ((claim_c4 srv4).2.1 [("R1", "North")] fields4 rfl).trans (by rfl)
  · exact ((claim_c4 srv4).2.2 fields4 "R1" "P1" "North" "UnitA" [] "100"
      "Audit" [("200", "Law")]
      [("r", "R1"), ("p", "P1"), ("c", "100"),
        ("__EVENTTARGET", ""), ("__EVENTARGUMENT", "")]
      tablePage4 rfl rfl).trans (by rfl)

theorem sched_active_length {limit : Nat} {s t : SchedState}
    (h : Sched limit s t) (hs : s.active.length ≤ limit) :
    t.active.length ≤ limit := by
  cases h with
  | start w₁ w₂ tq a sink hlt =>
      simpa using hlt
  | emit w a₁ a₂ blk q sink =>
      simp only [List.length_append, List.length_cons] at hs ⊢
      omega
  | done w a₁ a₂ sink =>
      simp only [List.length_append, List.length_cons] at hs ⊢
      omega

theorem reach_active_length {limit : Nat} {s t : SchedState}
    (h : Reach limit s t) (hs : s.active.length ≤ limit) :
    t.active.length ≤ limit := by
  induction h with
  | refl s => exact hs
  | step hst hr ih => exact ih (sched_active_length hst hs)

/-- Claim C9: in any state reachable from the start of Phase 3, the number
of scrape tasks inside the semaphore-guarded region never exceeds the
configured concurrency limit, no matter how many combinations were
scheduled — tasks beyond the limit stay in the waiting pool until a slot
frees. -/
theorem claim_c9 (limit : Nat) (fields : FieldNames) (combos : List Combo)
    (srv : Server) (s : SchedState)
    (h : Reach limit (initState fields combos srv) s) :
    s.active.length ≤ limit := by
  refine reach_active_length h ?_
  simp [initState]

/-- Claim C9 witness. -/
theorem claim_c9_witness :
    (initState fields4 [] srvEmpty).active.length ≤ 1 :=
  claim_c9 1 fields4 [] srvEmpty (initState fields4 [] srvEmpty)
    (Reach.refl (initState fields4 [] srvEmpty))

theorem ofList_append (l₁ l₂ : List Record) :
    Multiset.ofList (l₁ ++ l₂) = Multiset.ofList l₁ + Multiset.ofList l₂ := rfl

theorem ofList_nil : Multiset.ofList ([] : List Record) = 0 := rfl

theorem ofList_flatten (ls : List (List Record)) :
    Multiset.ofList ls.flatten = (ls.map (fun l => Multiset.ofList l)).sum := by
  induction ls with
  | nil => rfl
  | cons l rest ih =>
      rw [List.flatten_cons, ofList_append, ih, List.map_cons, List.sum_cons]

theorem sched_stateBag {limit : Nat} {s t : SchedState} (h : Sched limit s t) :
    stateBag t = stateBag s := by
  cases h with
  | start w₁ w₂ tq a sink hlt =>
      unfold stateBag
      simp only [List.map_append, List.sum_append, List.map_cons, List.sum_cons]
      abel
  | emit w a₁ a₂ blk q sink =>
      unfold stateBag
      simp only [List.map_append, List.sum_append, List.map_cons, List.sum_cons,
        List.flatten_cons, ofList_append]
      abel
  | done w a₁ a₂ sink =>
      unfold stateBag
      simp only [List.map_append, List.sum_append, List.map_cons, List.sum_cons,
        List.flatten_nil, ofList_nil]
      abel

theorem reach_stateBag {limit : Nat} {s t : SchedState} (h : Reach limit s t) :
    stateBag t = stateBag s := by
  induction h with
  | refl s => rfl
  | step hst hr ih => rw [ih, sched_stateBag hst]

/-- Claim C8: over a fixed combination set and a fixed deterministic
server, any complete schedule under concurrency limit 1 and any complete
schedule under limit 50 leave the same multiset of records in the sink;
that common multiset is exactly the per-combination record output, so the
record content is independent of the configured limit. -/
theorem claim_c8 (fields : FieldNames) (srv : Server) (combos : List Combo)
    (s₁ s₂ : SchedState)
    (h1 : Reach 1 (initState fields combos srv) s₁)
    (hw1 : s₁.waiting = []) (ha1 : s₁.active = [])
    (h2 : Reach 50 (initState fields combos srv) s₂)
    (hw2 : s₂.waiting = []) (ha2 : s₂.active = []) :
    Multiset.ofList s₁.sink = Multiset.ofList s₂.sink
    ∧ Multiset.ofList s₁.sink =
      Multiset.ofList
        ((combos.map (fun c => scrape_pou_combination fields c srv)).flatten) := by
  have hterm : ∀ s : SchedState, s.waiting = [] → s.active = [] →
      stateBag s = Multiset.ofList s.sink := by
    intro s hw ha
    unfold stateBag
    rw [hw, ha]
    simp
  have hinit : stateBag (initState fields combos srv) =
      Multiset.ofList
        ((combos.map (fun c => scrape_pou_combination fields c srv)).flatten) := by
    unfold stateBag initState
    rw [ofList_flatten, List.map_map, List.append_nil, List.map_map, ofList_nil,
      zero_add]
    rfl
  have e1 : Multiset.ofList s₁.sink =
      Multiset.ofList
        ((combos.map (fun c => scrape_pou_combination fields c srv)).flatten) := by
    rw [← hterm s₁ hw1 ha1, reach_stateBag h1, hinit]
  have e2 : Multiset.ofList s₂.sink =
      Multiset.ofList
        ((combos.map (fun c => scrape_pou_combination fields c srv)).flatten) := by
    rw [← hterm s₂ hw2 ha2, reach_stateBag h2, hinit]
  exact ⟨e1.trans e2.symm, e1⟩

/-- Claim C8 witness: a complete limit-1 schedule and a complete limit-50
schedule of the single `srv4` task both leave exactly `[rec4]` in the
sink. -/
theorem claim_c8_witness :
    Multiset.ofList [rec4] =
      Multiset.ofList
        (([comboW].map (fun c => scrape_pou_combination fields4 c srv4)).flatten) := by
  have hq : initState fields4 [comboW] srv4 = ⟨[[[rec4]]], [], []⟩ := by rfl
  have r1 : Reach 1 (initState fields4 [comboW] srv4) ⟨[], [], [rec4]⟩ := by
    rw [hq]
    exact Reach.step (Sched.start [] [] [[rec4]] [] [] (by decide))
      (Reach.step (Sched.emit [] [] [] [rec4] [] [])
        (Reach.step (Sched.done [] [] [] [rec4]) (Reach.refl _)))
  have r2 : Reach 50 (initState fields4 [comboW] srv4) ⟨[], [], [rec4]⟩ := by
    rw [hq]
    exact Reach.step (Sched.start [] [] [[rec4]] [] [] (by decide))
      (Reach.step (Sched.emit [] [] [] [rec4] [] [])
        (Reach.step (Sched.done [] [] [] [rec4]) (Reach.refl _)))
  exact (claim_c8 fields4 srv4 [comboW] ⟨[], [], [rec4]⟩ ⟨[], [], [rec4]⟩
    r1 rfl rfl r2 rfl rfl).2

/-- Claim C3 witness: against a server whose Step C response is a page
with no selects at all, the task yields zero records. -/
theorem claim_c3_witness : scrape_pou_combination fields4 comboW srvEmpty = [] :=
  claim_c3 fields4 comboW srvEmpty emptyPage "c" rfl rfl rfl

/-- Claim C7 witness: against a server whose region postback response has
no unit select, the region yields zero combinations. -/
theorem claim_c7_witness :
    fetch_pous_for_region fields4 ("R1", "North") srvEmpty = [] :=
  claim_c7 fields4 ("R1", "North") srvEmpty emptyPage "p" rfl rfl rfl

/-- Claim C10 witness: a single option with no value attribute makes the
option extraction raise, and a valueless option inside the region select
makes `fetch_regions` raise. -/
theorem claim_c10_witness :
    readOptions [⟨none, "Bad"⟩] = Except.error ()
    ∧ fetch_regions srv10 = Except.error () := by
  refine ⟨claim_c10.1 [⟨none, "Bad"⟩] ⟨⟨none, "Bad"⟩, by simp, rfl⟩, ?_⟩
  exact claim_c10.2.2 srv10 page10 fields4 "r" ⟨some "r", [⟨none, "Bad"⟩]⟩
    rfl rfl rfl rfl ⟨⟨none, "Bad"⟩, by simp, rfl⟩

end ICAI
